import Mathlib

/-!
Shallow embedding of the jsii Python runtime client layer, from
src/packages/jsii-python-runtime/src/jsii/_reference_map.py and
src/packages/jsii-python-runtime/src/jsii/_kernel/__init__.py.

Modelling conventions:
- Python object identity is modelled by allocation counters (`Inst.iid` for
  instances, `PyClass.cid` for classes); `klass.__new__(klass)` is a fresh
  allocation that does not run the initializer (`initRun = false`).
- The module-level registries `_types` / `_data_types` and the reference map
  `_refs` are explicit parameters / state.  The weak-value dictionary is
  modelled as an association list; weak collection is represented by an entry
  simply being absent.
- The provider is an oracle pair of functions (create / get are the only
  round trips the verified code paths perform).  Every round trip issued is
  appended to `RMState.log`, so theorems can speak about exactly which
  requests were sent.
- Python exceptions are the error side of `Except`; the mutual recursion
  between `resolve`, `Kernel.get` and `_recursize_dereference` is made
  total with a fuel parameter (`KErr.outOfFuel` never occurs in Python and
  only signals fuel exhaustion of the embedding).
-/

/-- A Python object as far as the override resolver inspects it: whether
`inspect.isfunction` / `inspect.isdatadescriptor` hold of it, its
`__jsii_name__` attribute when present, and its `fget` attribute
(`none` models a missing attribute, so that reading `.fget` raises
`AttributeError`; `some none` models `fget` being present but `None`). -/
inductive PyObj where
  | mk (isFunc : Bool) (isDataDesc : Bool) (jsiiName : Option String)
      (fget : Option (Option PyObj))

/-- Result of `inspect.isfunction` on the object. -/
def PyObj.isFunc : PyObj → Bool
  | .mk f _ _ _ => f

/-- Result of `inspect.isdatadescriptor` on the object. -/
def PyObj.isDataDesc : PyObj → Bool
  | .mk _ d _ _ => d

/-- The object's `__jsii_name__` attribute, when it has one. -/
def PyObj.jsiiName : PyObj → Option String
  | .mk _ _ n _ => n

/-- The object's `fget` attribute: `none` when the attribute is missing. -/
def PyObj.fget : PyObj → Option (Option PyObj)
  | .mk _ _ _ g => g

/-- A Python class as the override resolver sees it: its identity and its
`__dict__` as an insertion-ordered association list. -/
structure PyClass where
  cid : Nat
  dict : List (String × PyObj)

/-- One `Override` record from jsii._kernel.types: either a method override
(`Override(method=.., cookie=..)`) or a property override
(`Override(property_=.., cookie=..)`). -/
inductive Override where
  | method (jsiiName cookie : String)
  | property (jsiiName cookie : String)
deriving DecidableEq

/-- The only Python exception the override resolver can raise in the model:
`AttributeError` from reading `.fget` off an object that lacks it. -/
inductive PyErr where
  | attributeError
deriving DecidableEq

/-- First-match association-list lookup (Python dict access). -/
def lookupA {α : Type} : List (String × α) → String → Option α
  | [], _ => none
  | (k, v) :: rest, key => if k = key then some v else lookupA rest key

/-- Attribute lookup `getattr(klass, name, _nothing)` on a class: searches the
dictionaries of the class's method resolution order in order. -/
def classGetattr : List PyClass → String → Option PyObj
  | [], _ => none
  | c :: rest, name =>
    match lookupA c.dict name with
    | some v => some v
    | none => classGetattr rest name

/-- The inner loop of `_get_overides` over one ancestor's `__dict__` items.
For each (name, item): look up the same name on the declared jsii class; a
function item whose declared counterpart carries `__jsii_name__` yields a
method override; otherwise a data-descriptor item reads
`original.fget` (raising `AttributeError` when that attribute is missing) and
yields a property override when the accessor carries `__jsii_name__`. -/
def processItems (klassMro : List PyClass) :
    List (String × PyObj) → Except PyErr (List Override)
  | [] => .ok []
  | (name, item) :: rest =>
    match classGetattr klassMro name with
    | none => processItems klassMro rest
    | some orig =>
      match item.isFunc, orig.jsiiName with
      | true, some jn =>
        (processItems klassMro rest).map (fun os => Override.method jn name :: os)
      | _, _ =>
        if item.isDataDesc then
          match orig.fget with
          | none => .error .attributeError
          | some none => processItems klassMro rest
          | some (some g) =>
            match g.jsiiName with
            | some jn =>
              (processItems klassMro rest).map
                (fun os => Override.property jn name :: os)
            | none => processItems klassMro rest
        else processItems klassMro rest

/-- Embedding of `_get_overides(klass, obj)`: walk `type(obj).mro()`
(`objMro`), stopping at the declared class (`mro_klass is klass`, i.e. class
identity `cid = klassCid`), and collect the overrides of each earlier
ancestor's `__dict__`. -/
def getOverides (klassCid : Nat) (klassMro : List PyClass) :
    List PyClass → Except PyErr (List Override)
  | [] => .ok []
  | c :: rest =>
    if c.cid = klassCid then .ok []
    else
      match processItems klassMro c.dict with
      | .error e => .error e
      | .ok os =>
        match getOverides klassCid klassMro rest with
        | .error e => .error e
        | .ok os' => .ok (os ++ os')

/-- Modelled from the spec's words, for comparison with `getOverides`: an
override is recorded exactly for the members of ancestors strictly before the
declared class whose same-named member on the declared class is remote-bound;
plain callables are matched on the declared member itself, properties via the
declared property's accessor. -/
def itemOverride (klassMro : List PyClass) (name : String) (item : PyObj) :
    Option Override :=
  match classGetattr klassMro name with
  | none => none
  | some orig =>
    if item.isFunc then
      match orig.jsiiName with
      | some jn => some (.method jn name)
      | none => none
    else if item.isDataDesc then
      match orig.fget with
      | some (some g) =>
        match g.jsiiName with
        | some jn => some (.property jn name)
        | none => none
      | _ => none
    else none

/-- Declarative description of override computation following the spec's
words: ancestors strictly before the declared remote type, each contributing
the members `itemOverride` recognizes. -/
def overridesOfSpec (klassCid : Nat) (klassMro : List PyClass)
    (objMro : List PyClass) : List Override :=
  ((objMro.takeWhile fun c => c.cid ≠ klassCid).map
    (fun c => c.dict.filterMap (fun q => itemOverride klassMro q.1 q.2))).flatten

/-- Realizability condition on Python objects: `inspect.isfunction` and
`inspect.isdatadescriptor` are mutually exclusive in CPython (a function is a
plain non-data descriptor), stated over every member of an MRO. -/
def kindsOk (objMro : List PyClass) : Bool :=
  objMro.all fun c => c.dict.all fun q => !(q.2.isFunc && q.2.isDataDesc)

/-- An `ObjRef` from jsii._kernel.types: an opaque remote reference whose
`.ref` field is the string identifier issued by the kernel. -/
structure ObjRef where
  ref : String
deriving DecidableEq

/-- The `_FakeReference` wrapper of _reference_map.py: an object carrying only
a `__jsii_ref__` attribute, used as an addressing vehicle for field gets on
data values. -/
structure FakeReference where
  jsiiRef : ObjRef

/-- An entry of the `_types` registry as `resolve` consumes it: class
identity, `inspect.isabstract`, and the identity of the class returned by
`__jsii_proxy_class__()`. -/
structure RegisteredClass where
  cid : Nat
  isAbstract : Bool
  proxyCid : Nat
deriving DecidableEq

/-- An entry of the `_data_types` registry: the keys of the data type's
`__annotations__`, in order. -/
structure DataTypeInfo where
  annots : List String
deriving DecidableEq

/-- A local Python instance: allocation identity, the identity of the class
it was allocated from, whether its normal initializer has run, and its
`__jsii_ref__` attribute when assigned. -/
structure Inst where
  iid : Nat
  clsCid : Nat
  initRun : Bool
  jsiiRef : Option ObjRef
deriving DecidableEq

/-- A Python value flowing through the kernel layer: a scalar, a remote
reference marker, a mapping (modelled by its ordered unique-key item list),
an ordered sequence, or a local instance. -/
inductive JsiiValue where
  | prim (s : String)
  | objRef (r : ObjRef)
  | vmap (entries : List (JsiiValue × JsiiValue))
  | vlist (elems : List JsiiValue)
  | vinst (i : Inst)

/-- A `CreateRequest` as built by `Kernel.create`. -/
structure CreateRequest where
  fqn : String
  args : List JsiiValue
  overrides : List Override

/-- A `GetRequest` as built by `Kernel.get`. -/
structure GetRequest where
  objref : ObjRef
  property_ : String

/-- A provider round trip issued by the verified code paths. -/
inductive KRequest where
  | create (r : CreateRequest)
  | get (r : GetRequest)

/-- An opaque failure surfaced by the provider round trip. -/
structure ProviderErr where
  msg : String
deriving DecidableEq

/-- Errors of the kernel layer: a raw propagated provider failure, the
`ValueError("Unknown type: ...")` of `resolve`, a Python exception from
override computation, or exhaustion of the embedding's fuel. -/
inductive KErr where
  | provider (e : ProviderErr)
  | unknownType (fqn : String)
  | py (e : PyErr)
  | outOfFuel
deriving DecidableEq

/-- Mutable state of the layer: the reference map `_refs` (association list
from reference string to instance), the allocation counter backing
`__new__`, and the trace of provider round trips issued so far. -/
structure RMState where
  refs : List (String × Inst)
  nextId : Nat
  log : List KRequest

/-- The provider oracle: one function per request kind used here. -/
structure Provider where
  createFn : CreateRequest → Except ProviderErr ObjRef
  getFn : GetRequest → Except ProviderErr JsiiValue

/-- Embedding of `ref.ref.rsplit("@", 1)[0]`: everything before the last
`@`, or the whole string when there is none. -/
def classFqnOf (s : String) : String :=
  match s.toList.reverse.dropWhile (fun c => c ≠ '@') with
  | [] => s
  | _ :: pre => String.mk pre.reverse

/-- Embedding of `_ReferenceMap.register`: store the instance in `_refs`
under `inst.__jsii_ref__.ref` (reading that attribute raises when the
reference was never assigned). -/
def registerInst (inst : Inst) (st : RMState) : Except KErr RMState :=
  match inst.jsiiRef with
  | some r => .ok { st with refs := (r.ref, inst) :: st.refs }
  | none => .error (.py .attributeError)

mutual

/-- Embedding of `_ReferenceMap.resolve(kernel, ref)`: return the live map
entry if present; otherwise parse the type name and either allocate a fresh
uninitialized instance of the registered class (its concrete proxy class when
abstract) and assign the reference to it, or reconstruct a registered data
type field by field via kernel gets on a `_FakeReference`, or raise
`ValueError` for an unknown type. -/
def resolveRef (fuel : Nat) (p : Provider) (types : List (String × RegisteredClass))
    (dataTypes : List (String × DataTypeInfo)) (r : ObjRef) (st : RMState) :
    Except KErr JsiiValue × RMState :=
  match fuel with
  | 0 => (.error .outOfFuel, st)
  | fuel + 1 =>
    match lookupA st.refs r.ref with
    | some inst => (.ok (.vinst inst), st)
    | none =>
      let fqn := classFqnOf r.ref
      match lookupA types fqn with
      | some k =>
        let cid := if k.isAbstract then k.proxyCid else k.cid
        let inst : Inst := ⟨st.nextId, cid, false, some r⟩
        (.ok (.vinst inst), { st with nextId := st.nextId + 1 })
      | none =>
        match lookupA dataTypes fqn with
        | some dt =>
          match dataFields fuel p types dataTypes (FakeReference.mk r) dt.annots st with
          | (.ok es, st') => (.ok (.vmap es), st')
          | (.error e, st') => (.error e, st')
        | none => (.error (.unknownType fqn), st)

/-- The field loop of `resolve`'s data-type branch: for each declared field
name, one `kernel.get(_FakeReference(ref), name)`. -/
def dataFields (fuel : Nat) (p : Provider) (types : List (String × RegisteredClass))
    (dataTypes : List (String × DataTypeInfo)) (fr : FakeReference)
    (names : List String) (st : RMState) :
    Except KErr (List (JsiiValue × JsiiValue)) × RMState :=
  match fuel with
  | 0 => (.error .outOfFuel, st)
  | fuel + 1 =>
    match names with
    | [] => (.ok [], st)
    | n :: rest =>
      match kernelGet fuel p types dataTypes fr.jsiiRef n st with
      | (.ok v, st') =>
        match dataFields fuel p types dataTypes fr rest st' with
        | (.ok es, st'') => (.ok ((.prim n, v) :: es), st'')
        | (.error e, st'') => (.error e, st'')
      | (.error e, st') => (.error e, st')

/-- Embedding of `Kernel.get` (which carries the `@_dereferenced` decorator):
issue one `GetRequest`, then recursively dereference the provider's value. -/
def kernelGet (fuel : Nat) (p : Provider) (types : List (String × RegisteredClass))
    (dataTypes : List (String × DataTypeInfo)) (objref : ObjRef)
    (prop : String) (st : RMState) : Except KErr JsiiValue × RMState :=
  match fuel with
  | 0 => (.error .outOfFuel, st)
  | fuel + 1 =>
    let req : GetRequest := ⟨objref, prop⟩
    let st1 := { st with log := st.log ++ [.get req] }
    match p.getFn req with
    | .error e => (.error (.provider e), st1)
    | .ok v => recursizeDereference fuel p types dataTypes v st1

/-- Embedding of `_recursize_dereference(kernel, d)`: rebuild a mapping with
dereferenced values, resolve a remote-reference marker, and return anything
else unchanged. -/
def recursizeDereference (fuel : Nat) (p : Provider)
    (types : List (String × RegisteredClass))
    (dataTypes : List (String × DataTypeInfo)) (d : JsiiValue) (st : RMState) :
    Except KErr JsiiValue × RMState :=
  match fuel with
  | 0 => (.error .outOfFuel, st)
  | fuel + 1 =>
    match d with
    | .vmap es =>
      match derefEntries fuel p types dataTypes es st with
      | (.ok es', st') => (.ok (.vmap es'), st')
      | (.error e, st') => (.error e, st')
    | .objRef r => resolveRef fuel p types dataTypes r st
    | other => (.ok other, st)

/-- The dict comprehension of `_recursize_dereference`: keys are carried over
verbatim, values are dereferenced in order. -/
def derefEntries (fuel : Nat) (p : Provider) (types : List (String × RegisteredClass))
    (dataTypes : List (String × DataTypeInfo))
    (es : List (JsiiValue × JsiiValue)) (st : RMState) :
    Except KErr (List (JsiiValue × JsiiValue)) × RMState :=
  match fuel with
  | 0 => (.error .outOfFuel, st)
  | fuel + 1 =>
    match es with
    | [] => (.ok [], st)
    | (k, v) :: rest =>
      match recursizeDereference fuel p types dataTypes v st with
      | (.ok v', st') =>
        match derefEntries fuel p types dataTypes rest st' with
        | (.ok es', st'') => (.ok ((k, v') :: es'), st'')
        | (.error e, st'') => (.error e, st'')
      | (.error e, st') => (.error e, st')

end

/-- The declared jsii class as `Kernel.create` consumes it: its identity, its
`__jsii_type__` fully-qualified name, and its method resolution order for
attribute lookups. -/
structure JSClass where
  cid : Nat
  jsiiType : String
  mro : List PyClass

/-- Embedding of `Kernel.create(klass, obj, args)`: default missing args to
`[]`, compute the overrides of `obj` against `klass`, issue one
`CreateRequest` carrying the fully-qualified name, the args and the
overrides, assign the returned reference to `obj.__jsii_ref__` and return
it.  `objMro` is `type(obj).mro()`. -/
def kernelCreate (p : Provider) (klass : JSClass) (objMro : List PyClass)
    (obj : Inst) (args : Option (List JsiiValue)) (st : RMState) :
    Except KErr ObjRef × Inst × RMState :=
  let args := args.getD []
  match getOverides klass.cid klass.mro objMro with
  | .error e => (.error (.py e), obj, st)
  | .ok overrides =>
    let req : CreateRequest := ⟨klass.jsiiType, args, overrides⟩
    let st1 := { st with log := st.log ++ [.create req] }
    match p.createFn req with
    | .error e => (.error (.provider e), obj, st1)
    | .ok r => (.ok r, { obj with jsiiRef := some r }, st1)

mutual

/-- Whether a remote-reference marker occurs anywhere in a value, including
inside sequences and mapping keys. -/
def containsObjRef : JsiiValue → Bool
  | .objRef _ => true
  | .vmap es => containsInEntries es
  | .vlist xs => containsInList xs
  | .prim _ => false
  | .vinst _ => false

/-- Marker occurrence in a list of mapping items. -/
def containsInEntries : List (JsiiValue × JsiiValue) → Bool
  | [] => false
  | (k, v) :: rest => containsObjRef k || containsObjRef v || containsInEntries rest

/-- Marker occurrence in a list of values. -/
def containsInList : List JsiiValue → Bool
  | [] => false
  | x :: rest => containsObjRef x || containsInList rest

end

mutual

/-- Whether a value is free of remote-reference markers everywhere the
dereferencer looks: at the top level and recursively in mapping values.
Markers hidden inside ordered sequences or used as mapping keys are outside
the dereferencer's reach and do not count. -/
def noBareRef : JsiiValue → Bool
  | .objRef _ => false
  | .vmap es => noBareRefValues es
  | _ => true

/-- Marker freedom over the values of a list of mapping items. -/
def noBareRefValues : List (JsiiValue × JsiiValue) → Bool
  | [] => true
  | (_, v) :: rest => noBareRef v && noBareRefValues rest

end

/-! Concrete fixtures used by the closed theorems and witnesses below. -/

/-- A provider whose every round trip fails. -/
def failProvider : Provider :=
  ⟨fun _ => .error ⟨"unavailable"⟩, fun _ => .error ⟨"unavailable"⟩⟩

/-- A provider whose create round trip issues the reference mod.Foo@1 and
whose get round trip returns the scalar v. -/
def okProvider : Provider := ⟨fun _ => .ok ⟨"mod.Foo@1"⟩, fun _ => .ok (.prim "v")⟩

/-- A concrete non-abstract registered object type. -/
def fooClass : RegisteredClass := ⟨1, false, 1⟩

/-- A registry holding mod.Foo as an object type. -/
def demoTypes : List (String × RegisteredClass) := [("mod.Foo", fooClass)]

/-- A reference to a remote instance of mod.Foo. -/
def fooRef : ObjRef := ⟨"mod.Foo@1"⟩

/-- The initial state: empty reference map, allocation counter 0, no
requests issued. -/
def emptyState : RMState := ⟨[], 0, []⟩

/-- A remote-bound method on the declared class (its __jsii_name__ set by the
generated bindings). -/
def fnRemoteM : PyObj := .mk true false (some "remoteM") none

/-- A plain Python function, as found on a user subclass. -/
def fnLocalM : PyObj := .mk true false none none

/-- The accessor function of a remote-bound property on the declared class. -/
def getterRemoteP : PyObj := .mk true false (some "remoteP") none

/-- A remote-bound property of the declared class: a data descriptor whose
fget carries __jsii_name__. -/
def propRemoteP : PyObj := .mk false true none (some (some getterRemoteP))

/-- The accessor of a user-defined local property (no __jsii_name__). -/
def getterLocalP : PyObj := .mk true false none none

/-- A user-defined property overriding a remote-bound one. -/
def propLocalP : PyObj := .mk false true none (some (some getterLocalP))

/-- A plain helper function with no jsii metadata. -/
def fnHelper : PyObj := .mk true false none none

/-- The declared (remote-backed) class: remote method m, remote property p,
and a plain helper h that is not remote-bound. -/
def baseClass : PyClass := ⟨10, [("m", fnRemoteM), ("p", propRemoteP), ("h", fnHelper)]⟩

/-- The root of every MRO (Python's object). -/
def rootClass : PyClass := ⟨99, []⟩

/-- A user subclass overriding m, p, and h, and adding a new member loc. -/
def subClass : PyClass :=
  ⟨20, [("m", fnLocalM), ("p", propLocalP), ("h", fnHelper), ("loc", fnHelper)]⟩

/-- The declared jsii class handed to create. -/
def demoKlass : JSClass := ⟨10, "mod.Base", [baseClass, rootClass]⟩

/-- The MRO of the user subclass instance. -/
def demoObjMro : List PyClass := [subClass, baseClass, rootClass]

/-- A locally-constructed instance of the subclass, not yet bound to any
remote reference. -/
def demoObj : Inst := ⟨50, 20, true, none⟩

/-- A remote-bound method q on the declared class of the failing override
scenario: a plain function, so it has no fget attribute. -/
def fnRemoteQ : PyObj := .mk true false (some "remoteQ") none

/-- A subclass data descriptor named q whose declared counterpart is the
plain function fnRemoteQ. -/
def badPropQ : PyObj := .mk false true none (some (some getterLocalP))

/-- The declared class of the failing override scenario. -/
def baseB : PyClass := ⟨30, [("q", fnRemoteQ)]⟩

/-- The subclass of the failing override scenario. -/
def subB : PyClass := ⟨40, [("q", badPropQ)]⟩

/-- The declared jsii class of the failing override scenario. -/
def badKlass : JSClass := ⟨30, "mod.BaseB", [baseB]⟩

/-- An abstract registered class whose designated concrete proxy class has
identity 7. -/
def absClass : RegisteredClass := ⟨5, true, 7⟩

/-- A registry holding the abstract type mod.Abs. -/
def absTypes : List (String × RegisteredClass) := [("mod.Abs", absClass)]

/-- A reference to a remote instance of the abstract type. -/
def absRef : ObjRef := ⟨"mod.Abs@3"⟩

/-- A data-type descriptor with declared fields x and y. -/
def pointType : DataTypeInfo := ⟨["x", "y"]⟩

/-- A registry holding mod.Point as a data type. -/
def demoDataTypes : List (String × DataTypeInfo) := [("mod.Point", pointType)]

/-- A reference whose type name parses to the data type mod.Point. -/
def pointRef : ObjRef := ⟨"mod.Point@9"⟩

/-- A kernel result nesting a remote-reference marker inside an ordered
sequence that sits inside a mapping value. -/
def nestedTest : JsiiValue := JsiiValue.vmap [(.prim "k", .vlist [.objRef fooRef])]

/-- None of the resolution machinery ever writes to the reference map, and
the request log only ever grows: `register` is the sole writer of `_refs`,
and it is never called from `resolve`, `Kernel.get` or the dereferencer. -/
theorem stateShapeAll (fuel : Nat) :
    (∀ p types dts r st, ((resolveRef fuel p types dts r st).2.refs = st.refs ∧
      ∃ t, (resolveRef fuel p types dts r st).2.log = st.log ++ t)) ∧
    (∀ p types dts fr names st, ((dataFields fuel p types dts fr names st).2.refs = st.refs ∧
      ∃ t, (dataFields fuel p types dts fr names st).2.log = st.log ++ t)) ∧
    (∀ p types dts o pr st, ((kernelGet fuel p types dts o pr st).2.refs = st.refs ∧
      ∃ t, (kernelGet fuel p types dts o pr st).2.log = st.log ++ t)) ∧
    (∀ p types dts d st, ((recursizeDereference fuel p types dts d st).2.refs = st.refs ∧
      ∃ t, (recursizeDereference fuel p types dts d st).2.log = st.log ++ t)) ∧
    (∀ p types dts es st, ((derefEntries fuel p types dts es st).2.refs = st.refs ∧
      ∃ t, (derefEntries fuel p types dts es st).2.log = st.log ++ t)) := by
  induction fuel with
  | zero =>
    refine ⟨fun p types dts r st => ⟨rfl, [], by simp [resolveRef]⟩,
      fun p types dts fr names st => ⟨rfl, [], by simp [dataFields]⟩,
      fun p types dts o pr st => ⟨rfl, [], by simp [kernelGet]⟩,
      fun p types dts d st => ⟨rfl, [], by simp [recursizeDereference]⟩,
      fun p types dts es st => ⟨rfl, [], by simp [derefEntries]⟩⟩
  | succ n ih =>
    obtain ⟨ihR, ihD, ihG, ihDe, ihE⟩ := ih
    refine ⟨?_, ?_, ?_, ?_, ?_⟩
    · intro p types dts r st
      cases n0 : lookupA st.refs r.ref with
      | some inst => simp [resolveRef, n0]
      | none =>
        cases n1 : lookupA types (classFqnOf r.ref) with
        | some k => simp [resolveRef, n0, n1]
        | none =>
          cases n2 : lookupA dts (classFqnOf r.ref) with
          | none => simp [resolveRef, n0, n1, n2]
          | some dt =>
            have hD := ihD p types dts (FakeReference.mk r) dt.annots st
            cases hd : dataFields n p types dts (FakeReference.mk r) dt.annots st with
            | mk res st' =>
              rw [hd] at hD
              cases res <;> simpa [resolveRef, n0, n1, n2, hd] using hD
    · intro p types dts fr names st
      cases names with
      | nil => simp [dataFields]
      | cons nm rest =>
        have hG := ihG p types dts fr.jsiiRef nm st
        cases hg : kernelGet n p types dts fr.jsiiRef nm st with
        | mk res st' =>
          rw [hg] at hG
          cases res with
          | error e => simpa [dataFields, hg] using hG
          | ok v =>
            have hD := ihD p types dts fr rest st'
            cases hd : dataFields n p types dts fr rest st' with
            | mk res2 st'' =>
              rw [hd] at hD
              obtain ⟨href1, t1, hlog1⟩ := hG
              obtain ⟨href2, t2, hlog2⟩ := hD
              dsimp only at href1 hlog1 href2 hlog2
              cases res2 <;>
                refine ⟨by simp [dataFields, hg, hd, href2, href1], t1 ++ t2,
                  by simp [dataFields, hg, hd, hlog2, hlog1]⟩
    · intro p types dts o pr st
      have hDe := ihDe p types dts
      cases hg : p.getFn ⟨o, pr⟩ with
      | error e => exact ⟨by simp [kernelGet, hg], [.get ⟨o, pr⟩], by simp [kernelGet, hg]⟩
      | ok v =>
        have h1 := ihDe p types dts v { st with log := st.log ++ [.get ⟨o, pr⟩] }
        obtain ⟨href, t, hlog⟩ := h1
        exact ⟨by simpa [kernelGet, hg] using href, .get ⟨o, pr⟩ :: t,
          by simpa [kernelGet, hg] using hlog⟩
    · intro p types dts d st
      cases d with
      | vmap es =>
        have hE := ihE p types dts es st
        cases he : derefEntries n p types dts es st with
        | mk res st' =>
          rw [he] at hE
          cases res <;> simpa [recursizeDereference, he] using hE
      | objRef r =>
        have hR := ihR p types dts r st
        simpa [recursizeDereference] using hR
      | prim s => simp [recursizeDereference]
      | vlist xs => simp [recursizeDereference]
      | vinst i => simp [recursizeDereference]
    · intro p types dts es st
      cases es with
      | nil => simp [derefEntries]
      | cons kv rest =>
        obtain ⟨k, v⟩ := kv
        have hDe := ihDe p types dts v st
        cases hd : recursizeDereference n p types dts v st with
        | mk res st' =>
          rw [hd] at hDe
          cases res with
          | error e => simpa [derefEntries, hd] using hDe
          | ok v' =>
            have hE := ihE p types dts rest st'
            cases he : derefEntries n p types dts rest st' with
            | mk res2 st'' =>
              rw [he] at hE
              obtain ⟨href1, t1, hlog1⟩ := hDe
              obtain ⟨href2, t2, hlog2⟩ := hE
              dsimp only at href1 hlog1 href2 hlog2
              cases res2 <;>
                refine ⟨by simp [derefEntries, hd, he, href2, href1], t1 ++ t2,
                  by simp [derefEntries, hd, he, hlog2, hlog1]⟩

/-- On success the resolution machinery returns marker-free values (in the
`noBareRef` sense): resolved instances, or data-value mappings whose keys
are exactly the declared field names and whose values are themselves
dereferenced. -/
theorem derefSoundAll (fuel : Nat) :
    (∀ p types dts r st v st', resolveRef fuel p types dts r st = (.ok v, st') →
      noBareRef v = true) ∧
    (∀ p types dts fr names st es st', dataFields fuel p types dts fr names st = (.ok es, st') →
      noBareRefValues es = true ∧ es.map Prod.fst = names.map JsiiValue.prim) ∧
    (∀ p types dts o pr st v st', kernelGet fuel p types dts o pr st = (.ok v, st') →
      noBareRef v = true) ∧
    (∀ p types dts d st v st', recursizeDereference fuel p types dts d st = (.ok v, st') →
      noBareRef v = true) ∧
    (∀ p types dts es st es' st', derefEntries fuel p types dts es st = (.ok es', st') →
      noBareRefValues es' = true ∧ es'.map Prod.fst = es.map Prod.fst) := by
  induction fuel with
  | zero =>
    refine ⟨fun p types dts r st v st' h => by simp [resolveRef] at h,
      fun p types dts fr names st es st' h => by simp [dataFields] at h,
      fun p types dts o pr st v st' h => by simp [kernelGet] at h,
      fun p types dts d st v st' h => by simp [recursizeDereference] at h,
      fun p types dts es st es' st' h => by simp [derefEntries] at h⟩
  | succ n ih =>
    obtain ⟨ihR, ihD, ihG, ihDe, ihE⟩ := ih
    refine ⟨?_, ?_, ?_, ?_, ?_⟩
    · intro p types dts r st v st' h
      cases n0 : lookupA st.refs r.ref with
      | some inst =>
        simp [resolveRef, n0] at h
        obtain ⟨hv, -⟩ := h
        subst hv
        simp [noBareRef]
      | none =>
        cases n1 : lookupA types (classFqnOf r.ref) with
        | some k =>
          simp [resolveRef, n0, n1] at h
          obtain ⟨hv, -⟩ := h
          subst hv
          simp [noBareRef]
        | none =>
          cases n2 : lookupA dts (classFqnOf r.ref) with
          | none => simp [resolveRef, n0, n1, n2] at h
          | some dt =>
            cases hd : dataFields n p types dts (FakeReference.mk r) dt.annots st with
            | mk res st0 =>
              cases res with
              | error e => simp [resolveRef, n0, n1, n2, hd] at h
              | ok es0 =>
                simp [resolveRef, n0, n1, n2, hd] at h
                obtain ⟨hv, -⟩ := h
                subst hv
                have := (ihD p types dts (FakeReference.mk r) dt.annots st es0 st0 hd).1
                simpa [noBareRef] using this
    · intro p types dts fr names st es st' h
      cases names with
      | nil =>
        simp [dataFields] at h
        obtain ⟨hv, -⟩ := h
        subst hv
        simp [noBareRefValues]
      | cons nm rest =>
        cases hg : kernelGet n p types dts fr.jsiiRef nm st with
        | mk res st0 =>
          cases res with
          | error e => simp [dataFields, hg] at h
          | ok v0 =>
            cases hd : dataFields n p types dts fr rest st0 with
            | mk res2 st1 =>
              cases res2 with
              | error e => simp [dataFields, hg, hd] at h
              | ok es0 =>
                simp [dataFields, hg, hd] at h
                obtain ⟨hv, -⟩ := h
                subst hv
                have h1 := ihG p types dts fr.jsiiRef nm st v0 st0 hg
                have h2 := ihD p types dts fr rest st0 es0 st1 hd
                simp [noBareRefValues, h1, h2.1, h2.2]
    · intro p types dts o pr st v st' h
      cases hg : p.getFn ⟨o, pr⟩ with
      | error e => simp [kernelGet, hg] at h
      | ok v0 =>
        simp only [kernelGet, hg] at h
        exact ihDe p types dts v0 _ v st' h
    · intro p types dts d st v st' h
      cases d with
      | vmap es =>
        cases he : derefEntries n p types dts es st with
        | mk res st0 =>
          cases res with
          | error e => simp [recursizeDereference, he] at h
          | ok es0 =>
            simp [recursizeDereference, he] at h
            obtain ⟨hv, -⟩ := h
            subst hv
            have := (ihE p types dts es st es0 st0 he).1
            simpa [noBareRef] using this
      | objRef r =>
        simp only [recursizeDereference] at h
        exact ihR p types dts r st v st' h
      | prim s =>
        simp [recursizeDereference] at h
        obtain ⟨hv, -⟩ := h
        subst hv
        simp [noBareRef]
      | vlist xs =>
        simp [recursizeDereference] at h
        obtain ⟨hv, -⟩ := h
        subst hv
        simp [noBareRef]
      | vinst i =>
        simp [recursizeDereference] at h
        obtain ⟨hv, -⟩ := h
        subst hv
        simp [noBareRef]
    · intro p types dts es st es' st' h
      cases es with
      | nil =>
        simp [derefEntries] at h
        obtain ⟨hv, -⟩ := h
        subst hv
        simp [noBareRefValues]
      | cons kv rest =>
        obtain ⟨k, v0⟩ := kv
        cases hd : recursizeDereference n p types dts v0 st with
        | mk res st0 =>
          cases res with
          | error e => simp [derefEntries, hd] at h
          | ok v1 =>
            cases he : derefEntries n p types dts rest st0 with
            | mk res2 st1 =>
              cases res2 with
              | error e => simp [derefEntries, hd, he] at h
              | ok es0 =>
                simp [derefEntries, hd, he] at h
                obtain ⟨hv, -⟩ := h
                subst hv
                have h1 := ihDe p types dts v0 st v1 st0 hd
                have h2 := ihE p types dts rest st0 es0 st1 he
                simp [noBareRefValues, h1, h2.1, h2.2]

/-- A successful `Kernel.get` logs its own `GetRequest` first, followed by
whatever requests nested dereferencing issued. -/
theorem kernelGetLog (fuel : Nat) (p : Provider) (types : List (String × RegisteredClass))
    (dts : List (String × DataTypeInfo)) (o : ObjRef) (pr : String) (st : RMState)
    (v : JsiiValue) (st' : RMState)
    (h : kernelGet fuel p types dts o pr st = (.ok v, st')) :
    ∃ t, st'.log = st.log ++ (KRequest.get ⟨o, pr⟩) :: t := by
  cases fuel with
  | zero => simp [kernelGet] at h
  | succ n =>
    cases hg : p.getFn ⟨o, pr⟩ with
    | error e => simp [kernelGet, hg] at h
    | ok v0 =>
      simp only [kernelGet, hg] at h
      obtain ⟨-, t, hlog⟩ := (stateShapeAll n).2.2.2.1 p types dts v0
        { st with log := st.log ++ [.get ⟨o, pr⟩] }
      rw [h] at hlog
      exact ⟨t, by simpa using hlog⟩

/-- The data-type field loop issues one `GetRequest` per declared field, in
order, addressed at the container reference carried by the `_FakeReference`
(nested dereferencing may interleave further requests after each). -/
theorem dataFieldsRequests (fuel : Nat) :
    ∀ p types dts (fr : FakeReference) names st es st',
      dataFields fuel p types dts fr names st = (.ok es, st') →
      ∃ t, st'.log = st.log ++ t ∧
        List.Sublist (names.map fun nm => KRequest.get ⟨fr.jsiiRef, nm⟩) t := by
  induction fuel with
  | zero => intro p types dts fr names st es st' h; simp [dataFields] at h
  | succ n ih =>
    intro p types dts fr names st es st' h
    cases names with
    | nil =>
      simp [dataFields] at h
      obtain ⟨-, hst⟩ := h
      subst hst
      exact ⟨[], by simp, by simp⟩
    | cons nm rest =>
      cases hg : kernelGet n p types dts fr.jsiiRef nm st with
      | mk res st0 =>
        cases res with
        | error e => simp [dataFields, hg] at h
        | ok v0 =>
          cases hd : dataFields n p types dts fr rest st0 with
          | mk res2 st1 =>
            cases res2 with
            | error e => simp [dataFields, hg, hd] at h
            | ok es0 =>
              simp [dataFields, hg, hd] at h
              obtain ⟨-, hst⟩ := h
              subst hst
              obtain ⟨t1, hlog1⟩ := kernelGetLog n p types dts fr.jsiiRef nm st v0 st0 hg
              obtain ⟨t2, hlog2, hsub⟩ := ih p types dts fr rest st0 es0 st1 hd
              refine ⟨KRequest.get ⟨fr.jsiiRef, nm⟩ :: (t1 ++ t2), ?_, ?_⟩
              · rw [hlog2, hlog1]
                simp
              · simp only [List.map_cons]
                exact List.Sublist.cons₂ _ (hsub.trans (List.sublist_append_right t1 t2))

/-- When the inner loop of `_get_overides` succeeds on realizable members,
its output is the declarative `itemOverride` filter of the items. -/
theorem processItemsOk (klassMro : List PyClass) :
    ∀ items os, (∀ q ∈ items, !(q.2.isFunc && q.2.isDataDesc) = true) →
      processItems klassMro items = .ok os →
      os = items.filterMap (fun q => itemOverride klassMro q.1 q.2) := by
  intro items
  induction items with
  | nil =>
    intro os hwf h
    simp [processItems] at h
    simp [h.symm]
  | cons hd tl ih =>
    obtain ⟨name, item⟩ := hd
    intro os hwf h
    have hwfhd := hwf (name, item) (List.mem_cons_self _ _)
    have hwftl : ∀ q ∈ tl, !(q.2.isFunc && q.2.isDataDesc) = true :=
      fun q hq => hwf q (List.mem_cons_of_mem _ hq)
    cases hga : classGetattr klassMro name with
    | none =>
      simp only [processItems, hga] at h
      simp [List.filterMap_cons, itemOverride, hga, ih os hwftl h]
    | some orig =>
      cases hf : item.isFunc with
      | true =>
        have hdd : item.isDataDesc = false := by
          simp [hf] at hwfhd; exact hwfhd
        cases hn : orig.jsiiName with
        | some jn =>
          simp only [processItems, hga, hf, hn] at h
          cases hrec : processItems klassMro tl with
          | error e => rw [hrec] at h; simp [Except.map] at h
          | ok os0 =>
            rw [hrec] at h
            simp [Except.map] at h
            simp [List.filterMap_cons, itemOverride, hga, hf, hn, h.symm,
              ih os0 hwftl hrec]
        | none =>
          simp only [processItems, hga, hf, hn, hdd, Bool.false_eq_true, if_false] at h
          simp [List.filterMap_cons, itemOverride, hga, hf, hn, hdd, ih os hwftl h]
      | false =>
        cases hdd : item.isDataDesc with
        | false =>
          simp only [processItems, hga, hf, hdd, Bool.false_eq_true, if_false] at h
          simp [List.filterMap_cons, itemOverride, hga, hf, hdd, ih os hwftl h]
        | true =>
          cases hg : orig.fget with
          | none =>
            simp [processItems, hga, hf, hdd, hg] at h
          | some og =>
            cases og with
            | none =>
              simp only [processItems, hga, hf, hdd, hg, if_true] at h
              simp [List.filterMap_cons, itemOverride, hga, hf, hdd, hg, ih os hwftl h]
            | some g =>
              cases hn : g.jsiiName with
              | some jn =>
                simp only [processItems, hga, hf, hdd, hg, hn, if_true] at h
                cases hrec : processItems klassMro tl with
                | error e => rw [hrec] at h; simp [Except.map] at h
                | ok os0 =>
                  rw [hrec] at h
                  simp [Except.map] at h
                  simp [List.filterMap_cons, itemOverride, hga, hf, hdd, hg, hn,
                    h.symm, ih os0 hwftl hrec]
              | none =>
                simp only [processItems, hga, hf, hdd, hg, hn, if_true] at h
                simp [List.filterMap_cons, itemOverride, hga, hf, hdd, hg, hn,
                  ih os hwftl h]

/-- When `_get_overides` succeeds on realizable members, its output is
exactly the spec-described override list. -/
theorem getOveridesOk :
    ∀ objMro klassCid klassMro os, kindsOk objMro = true →
      getOverides klassCid klassMro objMro = .ok os →
      os = overridesOfSpec klassCid klassMro objMro := by
  intro objMro
  induction objMro with
  | nil =>
    intro klassCid klassMro os hwf h
    simp [getOverides] at h
    simp [overridesOfSpec, h.symm]
  | cons c rest ih =>
    intro klassCid klassMro os hwf h
    simp only [kindsOk, List.all_cons, Bool.and_eq_true] at hwf
    by_cases hc : c.cid = klassCid
    · simp [getOverides, hc] at h
      subst h
      simp [overridesOfSpec, hc]
    · simp only [getOverides, if_neg hc] at h
      cases hp : processItems klassMro c.dict with
      | error e => rw [hp] at h; simp at h
      | ok os1 =>
        rw [hp] at h
        cases hr : getOverides klassCid klassMro rest with
        | error e => rw [hr] at h; simp at h
        | ok os2 =>
          rw [hr] at h
          simp at h
          have h1 := processItemsOk klassMro c.dict os1
            (fun q hq => by simpa using List.all_eq_true.1 hwf.1 q hq) hp
          have h2 := ih klassCid klassMro os2 hwf.2 hr
          simp [overridesOfSpec, List.takeWhile_cons, hc] at h2 ⊢
          rw [← h, h1, h2]

/-- The inner loop of `_get_overides` raises `AttributeError` whenever some
item is a data descriptor whose declared counterpart exists but has no
`fget` attribute. -/
theorem processItemsBad (klassMro : List PyClass) :
    ∀ items name item orig, (name, item) ∈ items →
      item.isFunc = false → item.isDataDesc = true →
      classGetattr klassMro name = some orig → orig.fget = none →
      processItems klassMro items = .error .attributeError := by
  intro items
  induction items with
  | nil => intro name item orig hmem; simp at hmem
  | cons hd tl ih =>
    obtain ⟨nm0, it0⟩ := hd
    intro name item orig hmem hf hdd hga hfget
    rcases List.mem_cons.1 hmem with heq | hmem'
    · injection heq with e1 e2
      subst e1; subst e2
      simp [processItems, hga, hf, hdd, hfget]
    · have htl := ih name item orig hmem' hf hdd hga hfget
      cases hga0 : classGetattr klassMro nm0 with
      | none => simpa [processItems, hga0] using htl
      | some orig0 =>
        cases hf0 : it0.isFunc with
        | true =>
          cases hn0 : orig0.jsiiName with
          | some jn => simp [processItems, hga0, hf0, hn0, htl, Except.map]
          | none =>
            cases hdd0 : it0.isDataDesc with
            | false => simpa [processItems, hga0, hf0, hn0, hdd0] using htl
            | true =>
              cases hg0 : orig0.fget with
              | none => simp [processItems, hga0, hf0, hn0, hdd0, hg0]
              | some og =>
                cases og with
                | none => simpa [processItems, hga0, hf0, hn0, hdd0, hg0] using htl
                | some g =>
                  cases hn1 : g.jsiiName with
                  | some jn => simp [processItems, hga0, hf0, hn0, hdd0, hg0, hn1, htl, Except.map]
                  | none => simpa [processItems, hga0, hf0, hn0, hdd0, hg0, hn1] using htl
        | false =>
          cases hdd0 : it0.isDataDesc with
          | false => simpa [processItems, hga0, hf0, hdd0] using htl
          | true =>
            cases hg0 : orig0.fget with
            | none => simp [processItems, hga0, hf0, hdd0, hg0]
            | some og =>
              cases og with
              | none => simpa [processItems, hga0, hf0, hdd0, hg0] using htl
              | some g =>
                cases hn1 : g.jsiiName with
                | some jn => simp [processItems, hga0, hf0, hdd0, hg0, hn1, htl, Except.map]
                | none => simpa [processItems, hga0, hf0, hdd0, hg0, hn1] using htl

/-- `_get_overides` raises `AttributeError` whenever an ancestor strictly
before the declared class holds such a problematic data descriptor. -/
theorem getOveridesBad :
    ∀ objMro klassCid klassMro c name item orig,
      c ∈ objMro.takeWhile (fun k => k.cid ≠ klassCid) →
      (name, item) ∈ c.dict →
      item.isFunc = false → item.isDataDesc = true →
      classGetattr klassMro name = some orig → orig.fget = none →
      getOverides klassCid klassMro objMro = .error .attributeError := by
  intro objMro
  induction objMro with
  | nil => intro klassCid klassMro c name item orig hmem; simp at hmem
  | cons c0 rest ih =>
    intro klassCid klassMro c name item orig hmem hdict hf hdd hga hfget
    by_cases hc : c0.cid = klassCid
    · simp [List.takeWhile_cons, hc] at hmem
    · have hmem2 : c = c0 ∨ c ∈ rest.takeWhile (fun k => decide (k.cid ≠ klassCid)) := by
        simpa [List.takeWhile_cons, hc] using hmem
      rcases hmem2 with heq | hmem'
      · rw [heq] at hdict
        have hbad := processItemsBad klassMro c0.dict name item orig hdict hf hdd hga hfget
        simp [getOverides, hc, hbad]
      · have htl := ih klassCid klassMro c name item orig hmem' hdict hf hdd hga hfget
        cases hp : processItems klassMro c0.dict with
        | error e => cases e; simp [getOverides, hc, hp]
        | ok os1 => simp [getOverides, hc, hp, htl]

/-- C1, failing evaluation: resolving the previously-unseen reference
mod.Foo@1 twice (mod.Foo registered as an object type, reference map empty)
allocates two distinct instances, because the object-type branch of
`resolveRef` never registers the freshly created proxy in the reference map —
so the second resolution misses the map again.  The claim (and the spec's
register contract) requires the very same object both times. -/
theorem resolve_twice_creates_distinct_instances :
    resolveRef 3 failProvider demoTypes [] fooRef ⟨[], 0, []⟩ =
      (.ok (.vinst ⟨0, 1, false, some fooRef⟩), ⟨[], 1, []⟩) ∧
    resolveRef 3 failProvider demoTypes [] fooRef ⟨[], 1, []⟩ =
      (.ok (.vinst ⟨1, 1, false, some fooRef⟩), ⟨[], 2, []⟩) ∧
    (Inst.mk 0 1 false (some fooRef)) ≠ (Inst.mk 1 1 false (some fooRef)) :=
  ⟨rfl, rfl, by decide⟩

/-- C2, counterexample: a mapping value holding an ordered sequence that
contains a resolvable remote-reference marker is returned by
`recursizeDereference` completely unchanged — the marker survives inside
the sequence even though its type is registered and resolvable, refuting the
claim that no marker remains anywhere. -/
theorem deref_leaves_marker_inside_sequence :
    recursizeDereference 5 failProvider demoTypes [] nestedTest emptyState =
      (.ok nestedTest, emptyState) ∧
    containsObjRef nestedTest = true ∧
    (lookupA demoTypes (classFqnOf fooRef.ref)).isSome = true :=
  ⟨rfl, rfl, rfl⟩

/-- C2, amended: dereferencing recurses through mapping values only.  On
success no remote-reference marker remains at the top level or anywhere in
(recursively nested) mapping values, while an ordered sequence — and hence
every marker inside it — and every scalar pass through entirely unchanged. -/
theorem deref_no_bare_marker_outside_sequences :
    (∀ fuel p types dts d st v st',
      recursizeDereference fuel p types dts d st = (.ok v, st') → noBareRef v = true) ∧
    (∀ fuel p types dts xs st,
      recursizeDereference (fuel + 1) p types dts (.vlist xs) st = (.ok (.vlist xs), st)) ∧
    (∀ fuel p types dts s st,
      recursizeDereference (fuel + 1) p types dts (.prim s) st = (.ok (.prim s), st)) :=
  ⟨fun fuel p types dts d st v st' h => (derefSoundAll fuel).2.2.2.1 p types dts d st v st' h,
   fun fuel p types dts xs st => by simp [recursizeDereference],
   fun fuel p types dts s st => by simp [recursizeDereference]⟩

/-- C2 witness: the amended theorem applied to a bare marker (resolved into
an instance, marker-free) and to a sequence holding a marker (returned
unchanged). -/
theorem deref_no_bare_marker_outside_sequences_witness :
    noBareRef (.vinst ⟨0, 1, false, some fooRef⟩) = true ∧
    recursizeDereference 2 failProvider demoTypes [] (.vlist [.objRef fooRef]) emptyState =
      (.ok (.vlist [.objRef fooRef]), emptyState) :=
  ⟨deref_no_bare_marker_outside_sequences.1 2 failProvider demoTypes [] (.objRef fooRef)
      emptyState (.vinst ⟨0, 1, false, some fooRef⟩) ⟨[], 1, []⟩ rfl,
   deref_no_bare_marker_outside_sequences.2.1 1 failProvider demoTypes [] [.objRef fooRef]
      emptyState⟩

/-- C3, counterexample: a concrete successful `Kernel.create` leaves the
reference map empty — the instance is not registered under the returned
reference mod.Foo@1, refuting the claim's registration conjunct. -/
theorem create_does_not_register_instance :
    (kernelCreate okProvider demoKlass demoObjMro demoObj none emptyState).2.2.refs = [] ∧
    (kernelCreate okProvider demoKlass demoObjMro demoObj none emptyState).1 =
      .ok ⟨"mod.Foo@1"⟩ ∧
    lookupA (kernelCreate okProvider demoKlass demoObjMro demoObj none emptyState).2.2.refs
      "mod.Foo@1" = none :=
  ⟨rfl, rfl, rfl⟩

/-- C3, amended: `Kernel.create` computes the Overrides of the instance
against the declared type, issues exactly one create request carrying the
fully-qualified type name, the (defaulted) constructor arguments and those
Overrides, binds the returned remote reference onto the instance, and
returns it; the reference map is left untouched (registration is a separate
`register` call made by the caller). -/
theorem create_sends_request_binds_and_returns_reference :
    ∀ p klass objMro obj args st ov r,
      getOverides klass.cid klass.mro objMro = .ok ov →
      p.createFn ⟨klass.jsiiType, args.getD [], ov⟩ = .ok r →
      kernelCreate p klass objMro obj args st =
        (.ok r, { obj with jsiiRef := some r },
         { st with log := st.log ++ [.create ⟨klass.jsiiType, args.getD [], ov⟩] }) := by
  intro p klass objMro obj args st ov r hov hcr
  simp [kernelCreate, hov, hcr]

/-- C3 witness: the amended create theorem applied at a concrete class,
instance and provider. -/
theorem create_sends_request_binds_and_returns_reference_witness :
    kernelCreate okProvider demoKlass demoObjMro demoObj none emptyState =
      (.ok ⟨"mod.Foo@1"⟩, { demoObj with jsiiRef := some ⟨"mod.Foo@1"⟩ },
       { emptyState with log := [.create ⟨"mod.Base", [],
          [.method "remoteM" "m", .property "remoteP" "p"]⟩] }) :=
  create_sends_request_binds_and_returns_reference okProvider demoKlass demoObjMro demoObj
    none emptyState [.method "remoteM" "m", .property "remoteP" "p"] ⟨"mod.Foo@1"⟩ rfl rfl

/-- C4, failing evaluation: resolving the unseen reference mod.Abs@3 of a
registered abstract object type allocates a fresh instance of the designated
concrete proxy class (cid 7, not the abstract cid 5) without running the
initializer, assigns the reference to it and returns it — but the reference
map stays empty, refuting the claim's registration conjunct. -/
theorem resolve_object_type_skips_registration :
    lookupA absTypes (classFqnOf absRef.ref) = some absClass ∧
    absClass.isAbstract = true ∧ absClass.proxyCid = 7 ∧
    resolveRef 3 failProvider absTypes [] absRef emptyState =
      (.ok (.vinst ⟨0, 7, false, some absRef⟩), ⟨[], 1, []⟩) ∧
    lookupA (resolveRef 3 failProvider absTypes [] absRef emptyState).2.refs absRef.ref =
      none :=
  ⟨rfl, rfl, rfl, rfl, rfl⟩

/-- C5: whenever `_get_overides` succeeds (on realizable Python members,
where no object is both a function and a data descriptor), its output is
exactly the spec-described list: walking the instance's MRO up to the
declared remote type, one Override per ancestor member whose same-named
declared member is remote-bound — matched on the declared member itself for
plain callables and on the declared property's accessor for properties —
pairing the remote name with the ancestor's member name as cookie; non
remote-bound name collisions contribute nothing. -/
theorem get_overides_matches_declarative_description :
    ∀ klassCid klassMro objMro os, kindsOk objMro = true →
      getOverides klassCid klassMro objMro = .ok os →
      os = overridesOfSpec klassCid klassMro objMro :=
  fun klassCid klassMro objMro os hwf h => getOveridesOk objMro klassCid klassMro os hwf h

/-- C5 witness: a subclass overriding a remote method, a remote property
and a plain helper produces exactly the method and property overrides, in
order, and nothing for the helper or for members private to the subclass. -/
theorem get_overides_matches_declarative_description_witness :
    kindsOk demoObjMro = true ∧
    getOverides 10 [baseClass, rootClass] demoObjMro =
      .ok [.method "remoteM" "m", .property "remoteP" "p"] ∧
    [Override.method "remoteM" "m", Override.property "remoteP" "p"] =
      overridesOfSpec 10 [baseClass, rootClass] demoObjMro :=
  ⟨rfl, rfl, get_overides_matches_declarative_description 10 [baseClass, rootClass] demoObjMro
      [.method "remoteM" "m", .property "remoteP" "p"] rfl rfl⟩

/-- C6: resolving a reference whose type name is registered (only) as a
data type yields a mapping whose keys are exactly the descriptor's declared
fields in order, issues one property-get request per field addressed at the
container's reference (nested dereferencing may add further requests), and
adds no entry to the reference map. -/
theorem resolve_data_type_fields_and_no_registration :
    ∀ fuel p types dts r st dt v st',
      lookupA st.refs r.ref = none →
      lookupA types (classFqnOf r.ref) = none →
      lookupA dts (classFqnOf r.ref) = some dt →
      resolveRef fuel p types dts r st = (.ok v, st') →
      ∃ es t, v = .vmap es ∧
        es.map Prod.fst = dt.annots.map JsiiValue.prim ∧
        st'.refs = st.refs ∧
        st'.log = st.log ++ t ∧
        List.Sublist (dt.annots.map fun nm => KRequest.get ⟨r, nm⟩) t := by
  intro fuel p types dts r st dt v st' h0 h1 h2 h
  cases fuel with
  | zero => simp [resolveRef] at h
  | succ n =>
    cases hd : dataFields n p types dts (FakeReference.mk r) dt.annots st with
    | mk res st0 =>
      cases res with
      | error e => simp [resolveRef, h0, h1, h2, hd] at h
      | ok es0 =>
        simp [resolveRef, h0, h1, h2, hd] at h
        obtain ⟨hv, hst⟩ := h
        subst hst
        have hkeys := (derefSoundAll n).2.1 p types dts (FakeReference.mk r) dt.annots st es0 st0 hd
        have hrefs := ((stateShapeAll n).2.1 p types dts (FakeReference.mk r) dt.annots st).1
        rw [hd] at hrefs
        obtain ⟨t, hlog, hsub⟩ := dataFieldsRequests n p types dts (FakeReference.mk r)
          dt.annots st es0 st0 hd
        exact ⟨es0, t, hv.symm, hkeys.2, hrefs, hlog, hsub⟩

/-- C6 witness: the data-type theorem applied to mod.Point with fields x
and y against a provider returning scalars. -/
theorem resolve_data_type_fields_and_no_registration_witness :
    ∃ es t,
      (JsiiValue.vmap [(.prim "x", .prim "v"), (.prim "y", .prim "v")] : JsiiValue) =
        .vmap es ∧
      es.map Prod.fst = pointType.annots.map JsiiValue.prim ∧
      (RMState.mk [] 0 [.get ⟨pointRef, "x"⟩, .get ⟨pointRef, "y"⟩]).refs =
        emptyState.refs ∧
      (RMState.mk [] 0 [.get ⟨pointRef, "x"⟩, .get ⟨pointRef, "y"⟩]).log =
        emptyState.log ++ t ∧
      List.Sublist (pointType.annots.map fun nm => KRequest.get ⟨pointRef, nm⟩) t :=
  resolve_data_type_fields_and_no_registration 5 okProvider [] demoDataTypes pointRef
    emptyState pointType _ _ rfl rfl rfl rfl

/-- C7: resolving a reference whose type name is in neither registry fails
with the unknown-type error carrying that type name, and returns the state
completely unchanged — no reference-map entry, no allocation, no request. -/
theorem resolve_unknown_type_errors_without_mutation :
    ∀ fuel p types dts r st,
      lookupA st.refs r.ref = none →
      lookupA types (classFqnOf r.ref) = none →
      lookupA dts (classFqnOf r.ref) = none →
      resolveRef (fuel + 1) p types dts r st =
        (.error (.unknownType (classFqnOf r.ref)), st) := by
  intro fuel p types dts r st h0 h1 h2
  simp [resolveRef, h0, h1, h2]

/-- C7 witness: the unknown-type theorem applied to mod.Foo@1 with empty
registries. -/
theorem resolve_unknown_type_errors_without_mutation_witness :
    resolveRef 5 failProvider [] [] fooRef emptyState =
      (.error (.unknownType "mod.Foo"), emptyState) :=
  resolve_unknown_type_errors_without_mutation 4 failProvider [] [] fooRef emptyState
    rfl rfl rfl

/-- C8: when the provider round trip fails, the failure is propagated to
the caller unchanged and exactly one request was issued (no retry); for
create, the instance is returned with its reference still unassigned and the
reference map and allocation counter are untouched; for get, likewise only
the request log grows. -/
theorem provider_failure_propagates_without_mutation :
    (∀ p klass objMro obj args st ov e,
      getOverides klass.cid klass.mro objMro = .ok ov →
      p.createFn ⟨klass.jsiiType, args.getD [], ov⟩ = .error e →
      kernelCreate p klass objMro obj args st =
        (.error (.provider e), obj,
         { st with log := st.log ++ [.create ⟨klass.jsiiType, args.getD [], ov⟩] })) ∧
    (∀ fuel p types dts o pr st e,
      p.getFn ⟨o, pr⟩ = .error e →
      kernelGet (fuel + 1) p types dts o pr st =
        (.error (.provider e), { st with log := st.log ++ [.get ⟨o, pr⟩] })) := by
  constructor
  · intro p klass objMro obj args st ov e hov hcr
    simp [kernelCreate, hov, hcr]
  · intro fuel p types dts o pr st e hg
    simp [kernelGet, hg]

/-- C8 witness: the propagation theorem applied to a concrete failing
provider for both create and get. -/
theorem provider_failure_propagates_without_mutation_witness :
    kernelCreate failProvider demoKlass demoObjMro demoObj none emptyState =
      (.error (.provider ⟨"unavailable"⟩), demoObj,
       { emptyState with log := [.create ⟨"mod.Base", [],
          [.method "remoteM" "m", .property "remoteP" "p"]⟩] }) ∧
    kernelGet 5 failProvider demoTypes [] fooRef "bar" emptyState =
      (.error (.provider ⟨"unavailable"⟩),
       { emptyState with log := [.get ⟨fooRef, "bar"⟩] }) :=
  ⟨provider_failure_propagates_without_mutation.1 failProvider demoKlass demoObjMro demoObj
      none emptyState [.method "remoteM" "m", .property "remoteP" "p"] ⟨"unavailable"⟩ rfl rfl,
   provider_failure_propagates_without_mutation.2 4 failProvider demoTypes [] fooRef "bar"
      emptyState ⟨"unavailable"⟩ rfl⟩

/-- C9: dereferencing a mapping preserves its keys verbatim — a
remote-reference marker used as a key is returned to the caller unresolved —
while every value is dereferenced (no bare marker remains among the
values). -/
theorem deref_mapping_preserves_keys_resolves_values :
    ∀ fuel p types dts es st v st',
      recursizeDereference fuel p types dts (.vmap es) st = (.ok v, st') →
      ∃ es', v = .vmap es' ∧
        es'.map Prod.fst = es.map Prod.fst ∧
        noBareRefValues es' = true := by
  intro fuel p types dts es st v st' h
  cases fuel with
  | zero => simp [recursizeDereference] at h
  | succ n =>
    cases he : derefEntries n p types dts es st with
    | mk res st0 =>
      cases res with
      | error e => simp [recursizeDereference, he] at h
      | ok es0 =>
        simp [recursizeDereference, he] at h
        obtain ⟨hv, -⟩ := h
        have hs := (derefSoundAll n).2.2.2.2 p types dts es st es0 st0 he
        exact ⟨es0, hv.symm, hs.2, hs.1⟩

/-- C9 witness: a mapping whose single entry uses the same marker as key
and value comes back with the key still a marker and the value resolved to
an instance. -/
theorem deref_mapping_preserves_keys_resolves_values_witness :
    ∃ es', (JsiiValue.vmap [(.objRef fooRef, .vinst ⟨0, 1, false, some fooRef⟩)]) =
        .vmap es' ∧
      es'.map Prod.fst =
        [((JsiiValue.objRef fooRef : JsiiValue), (JsiiValue.objRef fooRef : JsiiValue))].map
          Prod.fst ∧
      noBareRefValues es' = true :=
  deref_mapping_preserves_keys_resolves_values 5 failProvider demoTypes []
    [(.objRef fooRef, .objRef fooRef)] emptyState _ _ rfl

/-- C10: when an ancestor strictly below the declared remote type defines
a data descriptor whose same-named declared member exists but has no fget
attribute, `_get_overides` raises `AttributeError` (instead of skipping or
recording the member), and `Kernel.create` therefore fails with that
`AttributeError` before issuing any provider request or touching any
state. -/
theorem get_overides_attribute_error_on_missing_fget :
    ∀ (klass : JSClass) objMro c name item orig p obj args st,
      c ∈ objMro.takeWhile (fun k => k.cid ≠ klass.cid) →
      (name, item) ∈ c.dict →
      item.isFunc = false → item.isDataDesc = true →
      classGetattr klass.mro name = some orig → orig.fget = none →
      getOverides klass.cid klass.mro objMro = .error .attributeError ∧
      kernelCreate p klass objMro obj args st = (.error (.py .attributeError), obj, st) := by
  intro klass objMro c name item orig p obj args st hmem hdict hf hdd hga hfget
  have h := getOveridesBad objMro klass.cid klass.mro c name item orig hmem hdict hf hdd
    hga hfget
  exact ⟨h, by simp [kernelCreate, h]⟩

/-- C10 witness: a subclass data descriptor q whose declared counterpart
is a plain remote-bound function (which has no fget attribute) makes both
`_get_overides` and create raise. -/
theorem get_overides_attribute_error_on_missing_fget_witness :
    getOverides 30 [baseB] [subB, baseB] = .error .attributeError ∧
    kernelCreate failProvider badKlass [subB, baseB] demoObj none emptyState =
      (.error (.py .attributeError), demoObj, emptyState) :=
  get_overides_attribute_error_on_missing_fget badKlass [subB, baseB] subB "q" badPropQ
    fnRemoteQ failProvider demoObj none emptyState
    (by rw [show ([subB, baseB].takeWhile fun k => k.cid ≠ badKlass.cid) = [subB] from rfl]
        exact List.mem_singleton_self _)
    (List.mem_singleton_self _) rfl rfl rfl rfl
